import Mathlib

/-!
Verification of the moviepy-stitch serverless video-stitching handler
(src/handler.py) against its natural-language specification.

The Python handler is shallowly embedded as pure Lean functions.  External
effects (HTTP fetches, ffmpeg/ffprobe subprocess invocations, the scratch
filesystem) are modelled by an `Env` oracle; the handler's observable side
effects (scratch-directory allocation and removal, fetches, manifest
writes, tool invocations) are recorded in an explicit event trace.
Numeric values that Python holds as floats are modelled as rationals, and
the textual rendering of numbers inside ffmpeg filter arguments is
abstracted by `AudioFilter` / `renderFilter`.
-/

/-- A byte of file content. -/
abbrev Byte := Fin 256

/-- The single-quote character (codepoint 39), kept as a named constant. -/
def squote : Char := Char.ofNat 39

/-- The backslash character (codepoint 92). -/
def bslash : Char := Char.ofNat 92

/-- The newline character (codepoint 10). -/
def nlChar : Char := Char.ofNat 10

/-- Does the first list occur as a leading run of the second? -/
def listStarts : List Char → List Char → Bool
  | [], _ => true
  | _ :: _, [] => false
  | a :: as, b :: bs => a = b && listStarts as bs

/-- Does `pat` occur contiguously somewhere inside the second list? -/
def listHasSub (pat : List Char) : List Char → Bool
  | [] => listStarts pat []
  | c :: cs => listStarts pat (c :: cs) || listHasSub pat cs

/-- Embedding of the Python substring test `pat in s`. -/
def strHas (s pat : String) : Bool := listHasSub pat.data s.data

/-- Embedding of the Python suffix test `s.endswith(t)`. -/
def strEnds (s t : String) : Bool := listStarts t.data.reverse s.data.reverse

/-- Embedding of the Python `s.lower()` (ASCII case folding). -/
def strLower (s : String) : String := String.mk (s.data.map Char.toLower)

/-!  Base64 (RFC 4648) as used by Python's `base64.b64encode`. -/

/-- The base64 alphabet: value `n < 64` to its alphabet character. -/
def b64char (n : Nat) : Char :=
  if n < 26 then Char.ofNat (65 + n)
  else if n < 52 then Char.ofNat (97 + (n - 26))
  else if n < 62 then Char.ofNat (48 + (n - 52))
  else if n = 62 then Char.ofNat 43
  else Char.ofNat 47

/-- Inverse of the base64 alphabet; `none` on characters outside it. -/
def b64val (c : Char) : Option Nat :=
  let n := c.toNat
  if 65 ≤ n ∧ n ≤ 90 then some (n - 65)
  else if 97 ≤ n ∧ n ≤ 122 then some (n - 97 + 26)
  else if 48 ≤ n ∧ n ≤ 57 then some (n - 48 + 52)
  else if n = 43 then some 62
  else if n = 47 then some 63
  else none

/-- Truncate a natural number into a byte. -/
def mkByte (n : Nat) : Byte := ⟨n % 256, Nat.mod_lt _ (by norm_num)⟩

/-- The four alphabet characters encoding one full 3-byte group. -/
def b64chars3 (a b c : Nat) : List Char :=
  [b64char (a / 4), b64char ((a % 4) * 16 + b / 16),
   b64char ((b % 16) * 4 + c / 64), b64char (c % 64)]

/-- Base64-encode a byte sequence, with `=` padding, as `base64.b64encode`. -/
def b64encodeBytes : List Byte → List Char
  | [] => []
  | [a] => [b64char (a.val / 4), b64char ((a.val % 4) * 16), '=', '=']
  | [a, b] => [b64char (a.val / 4), b64char ((a.val % 4) * 16 + b.val / 16),
               b64char ((b.val % 16) * 4), '=']
  | a :: b :: c :: rest => b64chars3 a.val b.val c.val ++ b64encodeBytes rest

/-- Base64-decode; `none` on input that is not well-formed base64. -/
def b64decodeBytes : List Char → Option (List Byte)
  | [] => some []
  | c0 :: c1 :: c2 :: c3 :: rest =>
    match b64val c0, b64val c1 with
    | some s0, some s1 =>
      if c2 = '=' then
        if c3 = '=' ∧ rest = [] then some [mkByte (s0 * 4 + s1 / 16)] else none
      else
        match b64val c2 with
        | some s2 =>
          if c3 = '=' then
            if rest = [] then
              some [mkByte (s0 * 4 + s1 / 16), mkByte ((s1 % 16) * 16 + s2 / 4)]
            else none
          else
            match b64val c3, b64decodeBytes rest with
            | some s3, some tail =>
              some (mkByte (s0 * 4 + s1 / 16) :: mkByte ((s1 % 16) * 16 + s2 / 4) ::
                    mkByte ((s2 % 4) * 64 + s3) :: tail)
            | _, _ => none
        | none => none
    | _, _ => none
  | _ => none

/-!  Concat manifest construction (src/handler.py lines 79-87). -/

/-- Embedding of the Python quote escaping from line 85 of the source,
the expression that replaces every single quote in a segment path by the
four characters quote-backslash-quote-quote. -/
def escChars : List Char → List Char
  | [] => []
  | c :: cs =>
    if c = squote then squote :: bslash :: squote :: squote :: escChars cs
    else c :: escChars cs

/-- One manifest line written for a segment path: the word file, a blank,
the escaped path wrapped in single quotes, and a newline (line 86). -/
def concatLine (p : String) : String :=
  String.mk ('f' :: 'i' :: 'l' :: 'e' :: ' ' :: squote ::
    (escChars p.data ++ squote :: nlChar :: []))

/-- The whole concat manifest: one line per segment path, in order. -/
def concatFileContent (paths : List String) : String :=
  String.join (paths.map concatLine)

/-- Modelled from the external media tool's documented contract: the
token reader used by its concat demuxer on the text after the file
keyword.  Outside single quotes a backslash escapes the next character
and an unquoted newline ends the token; inside single quotes every
character other than the closing quote is literal. -/
def ffTokenAux : Bool → List Char → List Char
  | _, [] => []
  | q, c :: cs =>
    if q then
      if c = squote then ffTokenAux false cs
      else c :: ffTokenAux true cs
    else
      if c = squote then ffTokenAux true cs
      else if c = nlChar then []
      else if c = bslash then
        match cs with
        | [] => []
        | d :: ds => d :: ffTokenAux false ds
      else c :: ffTokenAux false cs

/-- Modelled from the external media tool's documented contract: parse one
manifest line of the form produced by the source, recovering the path. -/
def ffParseLine (line : String) : Option String :=
  match line.data with
  | 'f' :: 'i' :: 'l' :: 'e' :: ' ' :: rest => some (String.mk (ffTokenAux false rest))
  | _ => none

/-!  Environment and effect model. -/

/-- Observable side effects of one handler invocation, in order. -/
inductive Event where
  | mkdtemp (dir : String)
  | fetch (url : String)
  | writeFile (path content : String)
  | runTool (cmd : List String)
  | rmtree (dir : String)
deriving DecidableEq

/-- Outcome of one external tool invocation (subprocess.run). -/
structure ToolResult where
  returncode : Int
  stderr : String
deriving DecidableEq

/-- Oracle for the world outside the handler: the network (fetch gives
the content type and the body bytes, or the message of the raised
exception), the external tool (run), the duration probe (the parsed
ffprobe output, none when it is non-numeric), the byte content scratch
files have when read back, and the name mkdtemp allocates. -/
structure Env where
  fetch : String → Except String (String × List Byte)
  run : List String → ToolResult
  probe : String → Option ℚ
  fileBytes : String → List Byte
  tempName : String

/-- Embedding of get_video_duration (lines 59-71): probe the file, and
fall back to 0.0 when the output does not parse as a float. -/
def get_video_duration (env : Env) (filepath : String) : ℚ :=
  (env.probe filepath).getD 0

/-!  Source Fetcher (download_file, lines 23-56). -/

/-- Zero-padded index as formatted by the source (three digits minimum). -/
def pad3 (n : Nat) : String :=
  let s := toString n
  String.mk (List.replicate (3 - s.length) '0') ++ s

/-- Embedding of the extension inference of lines 30-45. -/
def inferExt (url content_type : String) : String :=
  if strHas content_type "audio" ∨
      strHas (strLower url) ".wav" ∨ strHas (strLower url) ".mp3" ∨
      strHas (strLower url) ".aac" ∨ strHas (strLower url) ".m4a" then
    if strHas (strLower url) ".wav" ∨ strHas content_type "wav" then ".wav"
    else if strHas (strLower url) ".mp3" ∨ strHas content_type "mp3" then ".mp3"
    else if strHas (strLower url) ".m4a" ∨ strHas content_type "m4a" then ".m4a"
    else ".aac"
  else if strHas content_type "webm" ∨ strEnds url ".webm" then ".webm"
  else ".mp4"

/-- The scratch file path download_file writes to (line 47). -/
def scratchPath (temp_dir pfx : String) (index : Nat) (ext : String) : String :=
  temp_dir ++ "/" ++ pfx ++ "_" ++ pad3 index ++ ext

/-- Embedding of download_file (lines 23-56): fetch the url, or fail with
the raised error; on success the body is streamed to a scratch path whose
extension comes from the content type and the url. -/
def download_file (env : Env) (url temp_dir pfx : String) (index : Nat) :
    List Event × Except String String :=
  match env.fetch url with
  | Except.error e => ([Event.fetch url], Except.error e)
  | Except.ok (content_type, _body) =>
    ([Event.fetch url], Except.ok (scratchPath temp_dir pfx index (inferExt url content_type)))

/-- The fetch loop of handler lines 280-283: download each segment in
request order, with its position as index, stopping at the first error. -/
def downloadSegments (env : Env) (temp_dir : String) :
    List String → Nat → List Event × Except String (List String)
  | [], _ => ([], Except.ok [])
  | url :: rest, i =>
    match download_file env url temp_dir "segment" i with
    | (ev, Except.error e) => (ev, Except.error e)
    | (ev, Except.ok p) =>
      match downloadSegments env temp_dir rest (i + 1) with
      | (evs, Except.error e) => (ev ++ evs, Except.error e)
      | (evs, Except.ok ps) => (ev ++ evs, Except.ok (p :: ps))

/-!  Concatenator (stitch_videos_ffmpeg, lines 74-134). -/

/-- Embedding of os.path.dirname for the slash-separated paths the
handler builds (line 79). -/
def dirname (p : String) : String :=
  match p.data.reverse.dropWhile (fun c => c ≠ '/') with
  | [] => ""
  | _ :: rest => String.mk ((rest.dropWhile (fun c => c = '/')).reverse)

/-- The stream-copy concat command of lines 91-98. -/
def concatCopyCmd (concat_file output_path : String) : List String :=
  ["ffmpeg", "-y", "-f", "concat", "-safe", "0", "-i", concat_file, "-c", "copy", output_path]

/-- The transcode-fallback concat command of lines 106-117. -/
def concatFallbackCmd (concat_file output_path : String) : List String :=
  ["ffmpeg", "-y", "-f", "concat", "-safe", "0", "-i", concat_file,
   "-c:v", "libx264", "-preset", "fast", "-crf", "23", "-c:a", "aac", "-b:a", "128k",
   output_path]

/-- The result dict stitch_videos_ffmpeg returns on success (129-134). -/
structure StitchResult where
  success : Bool
  duration : ℚ
  file_size_bytes : Nat
  segments_count : Nat
deriving DecidableEq

/-- The success value of lines 124-134: probed duration and byte size of
the produced file plus the input segment count. -/
def stitchSuccess (env : Env) (output_path : String) (n : Nat) : StitchResult :=
  { success := true
    duration := get_video_duration env output_path
    file_size_bytes := (env.fileBytes output_path).length
    segments_count := n }

/-- Embedding of stitch_videos_ffmpeg (lines 74-134): write the escaped
manifest, attempt the stream-copy join, on tool failure attempt the one
transcode fallback, and if that fails too raise with the tool's stderr. -/
def stitch_videos_ffmpeg (env : Env) (segment_paths : List String) (output_path : String) :
    List Event × Except String StitchResult :=
  let concat_file := dirname output_path ++ "/concat_list.txt"
  let wEv := Event.writeFile concat_file (concatFileContent segment_paths)
  let cmd1 := concatCopyCmd concat_file output_path
  let r1 := env.run cmd1
  if r1.returncode ≠ 0 then
    let cmd2 := concatFallbackCmd concat_file output_path
    let r2 := env.run cmd2
    if r2.returncode ≠ 0 then
      ([wEv, Event.runTool cmd1, Event.runTool cmd2],
       Except.error ("FFmpeg failed: " ++ r2.stderr))
    else
      ([wEv, Event.runTool cmd1, Event.runTool cmd2],
       Except.ok (stitchSuccess env output_path segment_paths.length))
  else
    ([wEv, Event.runTool cmd1], Except.ok (stitchSuccess env output_path segment_paths.length))

/-!  Audio Overlay Composer (mux_audio_to_video, lines 137-237). -/

/-- One element of the ffmpeg audio filter chain; the numeric parameters
are kept symbolically rather than as rendered float text. -/
inductive AudioFilter where
  | volume (v : ℚ)
  | afade (start dur : ℚ)
deriving DecidableEq

/-- Embedding of the filter-chain construction of lines 163-173: a gain
filter when the volume multiplier differs from 1.0, then a fade-out when
the fade duration is positive and shorter than the probed video duration. -/
def buildAudioFilters (audio_volume fade_out_seconds video_duration : ℚ) : List AudioFilter :=
  (if audio_volume ≠ 1 then [AudioFilter.volume audio_volume] else []) ++
  (if 0 < fade_out_seconds ∧ fade_out_seconds < video_duration then
    [AudioFilter.afade (video_duration - fade_out_seconds) fade_out_seconds]
  else [])

/-- Textual rendering of one filter (float formatting abstracted). -/
def renderFilter : AudioFilter → String
  | AudioFilter.volume v => "volume=" ++ toString v
  | AudioFilter.afade s d => "afade=t=out:st=" ++ toString s ++ ":d=" ++ toString d

/-- The comma-joined -af argument of lines 192-193 and 217-218. -/
def renderFilters (fs : List AudioFilter) : String :=
  String.intercalate "," (fs.map renderFilter)

/-- The copy-tier mux command of lines 179-195: copy the video stream,
re-encode audio to aac at 192k, truncate to the shortest stream, with the
filter chain appended only when it is non-empty. -/
def muxCopyCmd (video_path audio_path output_path : String)
    (audio_filters : List AudioFilter) : List String :=
  ["ffmpeg", "-y", "-i", video_path, "-i", audio_path,
   "-map", "0:v:0", "-map", "1:a:0",
   "-c:v", "copy", "-c:a", "aac", "-b:a", "192k", "-shortest"] ++
  (if audio_filters.isEmpty then [] else ["-af", renderFilters audio_filters]) ++
  [output_path]

/-- The transcode-fallback mux command of lines 204-219. -/
def muxFallbackCmd (video_path audio_path output_path : String)
    (audio_filters : List AudioFilter) : List String :=
  ["ffmpeg", "-y", "-i", video_path, "-i", audio_path,
   "-map", "0:v:0", "-map", "1:a:0",
   "-c:v", "libx264", "-preset", "fast", "-crf", "23",
   "-c:a", "aac", "-b:a", "192k", "-shortest"] ++
  (if audio_filters.isEmpty then [] else ["-af", renderFilters audio_filters]) ++
  [output_path]

/-- The result dict mux_audio_to_video returns on success (232-237). -/
structure MuxResult where
  success : Bool
  duration : ℚ
  file_size_bytes : Nat
  has_audio : Bool
deriving DecidableEq

/-- The success value of lines 227-237. -/
def muxSuccess (env : Env) (output_path : String) : MuxResult :=
  { success := true
    duration := get_video_duration env output_path
    file_size_bytes := (env.fileBytes output_path).length
    has_audio := true }

/-- Embedding of mux_audio_to_video (lines 137-237): probe the video
duration, build the filter chain, attempt the video-copy mux, on tool
failure attempt the one transcode fallback, and if that fails too raise
with the tool's stderr. -/
def mux_audio_to_video (env : Env) (video_path audio_path output_path : String)
    (audio_volume fade_out_seconds : ℚ) : List Event × Except String MuxResult :=
  let video_duration := get_video_duration env video_path
  let audio_filters := buildAudioFilters audio_volume fade_out_seconds video_duration
  let cmd1 := muxCopyCmd video_path audio_path output_path audio_filters
  let r1 := env.run cmd1
  if r1.returncode ≠ 0 then
    let cmd2 := muxFallbackCmd video_path audio_path output_path audio_filters
    let r2 := env.run cmd2
    if r2.returncode ≠ 0 then
      ([Event.runTool cmd1, Event.runTool cmd2],
       Except.error ("FFmpeg mux failed: " ++ r2.stderr))
    else
      ([Event.runTool cmd1, Event.runTool cmd2], Except.ok (muxSuccess env output_path))
  else
    ([Event.runTool cmd1], Except.ok (muxSuccess env output_path))

/-!  Pipeline Orchestrator (handler, lines 240-348). -/

/-- The job input mapping.  Each optional key is `none` when absent; the
two float-valued keys carry either the converted rational or, when the
supplied value cannot be converted, the message of the exception that
Python's float() raises. -/
structure JobInput where
  segments : Option (List String)
  audio_url : Option String
  audio_volume : Option (Except String ℚ)
  fade_out : Option (Except String ℚ)
  output_format : Option String

/-- Embedding of float(job_input.get(key, default)) on lines 266-267:
an absent key converts the default, a present key either converts or
raises. -/
def pyFloat (v : Option (Except String ℚ)) (dflt : ℚ) : Except String ℚ :=
  match v with
  | none => Except.ok dflt
  | some r => r

/-- The mapping the handler returns to the host: a failure mapping with a
single error string, or the success mapping of lines 327-334. -/
inductive RpResult where
  | failure (error : String)
  | success (video_base64 : String) (duration : ℚ) (file_size_bytes : Nat)
      (segments_count : Nat) (format : String) (has_audio : Bool)
deriving DecidableEq

/-- How one handler call ends: a returned mapping, or an exception that
escapes the handler uncaught. -/
inductive HandlerOutcome where
  | ret (r : RpResult)
  | raised (msg : String)
deriving DecidableEq

/-- The stitched-output scratch path of line 275. -/
def stitchedPath (temp_dir output_format : String) : String :=
  temp_dir ++ "/stitched." ++ output_format

/-- The muxed-output scratch path of line 276. -/
def finalPath (temp_dir output_format : String) : String :=
  temp_dir ++ "/final." ++ output_format

/-- Embedding of the optional audio stage, lines 292-313: when audio_url
is truthy, fetch it and mux; any failure there is swallowed and the
stitched video-only artifact stays the output.  Returns the events, the
chosen output path, and the has_audio flag. -/
def audioStage (env : Env) (temp_dir stitched_path final_path : String)
    (audio_url : Option String) (audio_volume fade_out : ℚ) :
    List Event × String × Bool :=
  match audio_url with
  | none => ([], stitched_path, false)
  | some aurl =>
    if aurl.isEmpty then ([], stitched_path, false)
    else
      match download_file env aurl temp_dir "audio" 0 with
      | (ev, Except.error _e) => (ev, stitched_path, false)
      | (ev, Except.ok audio_path) =>
        match mux_audio_to_video env stitched_path audio_path final_path
            audio_volume fade_out with
        | (ev2, Except.error _e) => (ev ++ ev2, stitched_path, false)
        | (ev2, Except.ok mux_result) =>
          if mux_result.success then (ev ++ ev2, final_path, true)
          else (ev ++ ev2, stitched_path, false)

/-- Embedding of the finalize step, lines 315-334: read the output file,
base64-encode it behind a data URI whose mime tag is video/webm exactly
when the requested format is the string webm, probe duration and size,
and echo the requested format. -/
def finalizeResult (env : Env) (output_path output_format : String)
    (segments_count : Nat) (has_audio : Bool) : RpResult :=
  RpResult.success
    ("data:" ++ (if output_format = "webm" then "video/webm" else "video/mp4") ++
      ";base64," ++ String.mk (b64encodeBytes (env.fileBytes output_path)))
    (get_video_duration env output_path)
    (env.fileBytes output_path).length
    segments_count output_format has_audio

/-- The body of the try block, lines 278-334.  Every exception a stage
raises is caught by the except clause of line 336 and becomes a failure
mapping holding the exception text, so the body is total.  (When the
stitch result dict is not a success the source looks up its absent error
key and falls back to the literal default, line 289.) -/
def handlerBody (env : Env) (temp_dir : String) (segments : List String)
    (output_format : String) (audio_url : Option String)
    (audio_volume fade_out : ℚ) : List Event × RpResult :=
  match downloadSegments env temp_dir segments 0 with
  | (ev, Except.error e) => (ev, RpResult.failure e)
  | (ev, Except.ok segment_paths) =>
    match stitch_videos_ffmpeg env segment_paths (stitchedPath temp_dir output_format) with
    | (ev2, Except.error e) => (ev ++ ev2, RpResult.failure e)
    | (ev2, Except.ok stitch_result) =>
      if !stitch_result.success then (ev ++ ev2, RpResult.failure "Stitching failed")
      else
        let astep := audioStage env temp_dir (stitchedPath temp_dir output_format)
          (finalPath temp_dir output_format) audio_url audio_volume fade_out
        (ev ++ ev2 ++ astep.1,
         finalizeResult env astep.2.1 output_format segments.length astep.2.2)

/-- Embedding of handler (lines 240-348).  Validation rejects a missing,
empty or short segment list before anything else happens; the two float
conversions run next, still before the scratch directory is allocated and
before the try block, so a conversion error escapes uncaught; otherwise
the scratch directory is created, the body runs inside try/except, and
the finally clause removes the scratch directory recursively as the last
action before returning. -/
def handler (env : Env) (job : JobInput) : List Event × HandlerOutcome :=
  let segments := job.segments.getD []
  if segments.isEmpty ∨ segments.length < 2 then
    ([], HandlerOutcome.ret (RpResult.failure "At least 2 video segment URLs are required"))
  else
    match pyFloat job.audio_volume 1 with
    | Except.error e => ([], HandlerOutcome.raised e)
    | Except.ok audio_volume =>
      match pyFloat job.fade_out 0 with
      | Except.error e => ([], HandlerOutcome.raised e)
      | Except.ok fade_out =>
        let body := handlerBody env env.tempName segments (job.output_format.getD "mp4")
          job.audio_url audio_volume fade_out
        (Event.mkdtemp env.tempName :: body.1 ++ [Event.rmtree env.tempName],
         HandlerOutcome.ret body.2)

/-- The value following the first occurrence of a flag in a command. -/
def argAfter (flag : String) : List String → Option String
  | [] => none
  | [_] => none
  | x :: y :: rest => if x = flag then some y else argAfter flag (y :: rest)

/-!  Concrete environments and inputs used by the witness theorems. -/

/-- A world where every fetch and every tool invocation succeeds. -/
def envOK : Env :=
  { fetch := fun _ => Except.ok ("", [])
    run := fun _ => { returncode := 0, stderr := "" }
    probe := fun _ => none
    fileBytes := fun _ => []
    tempName := "/tmp/stitch_w" }

/-- A world where every fetch raises and every tool invocation fails. -/
def envBad : Env :=
  { fetch := fun _ => Except.error "boom"
    run := fun _ => { returncode := 1, stderr := "bad" }
    probe := fun _ => none
    fileBytes := fun _ => []
    tempName := "/tmp/stitch_w" }

/-- A world where only the audio source fetch raises. -/
def envAudioFail : Env :=
  { fetch := fun u => if u = "au" then Except.error "netfail" else Except.ok ("", [])
    run := fun _ => { returncode := 0, stderr := "" }
    probe := fun _ => none
    fileBytes := fun _ => []
    tempName := "/tmp/stitch_w" }

/-- A minimal valid two-segment request. -/
def jobTwoSegs : JobInput :=
  { segments := some ["s1", "s2"], audio_url := none
    audio_volume := none, fade_out := none, output_format := none }

/-- A request with a single segment. -/
def jobOneSeg : JobInput :=
  { segments := some ["s1"], audio_url := none
    audio_volume := none, fade_out := none, output_format := none }

/-- A request whose audio_volume value does not convert to a float. -/
def jobBadVolume : JobInput :=
  { segments := some ["s1", "s2"], audio_url := none
    audio_volume := some (Except.error "could not convert string to float: loud")
    fade_out := none, output_format := none }

/-- A valid request that also asks for an audio overlay. -/
def jobWithAudio : JobInput :=
  { segments := some ["s1", "s2"], audio_url := some "au"
    audio_volume := none, fade_out := none, output_format := none }

/-- A valid request with an arbitrary unvalidated output format value. -/
def jobWeirdFmt : JobInput :=
  { segments := some ["s1", "s2"], audio_url := none
    audio_volume := none, fade_out := none, output_format := some "weird" }

/-!  Theorems. -/

theorem b64val_b64char : ∀ n < 64, b64val (b64char n) = some n := by decide

theorem b64char_ne_pad : ∀ n < 64, b64char n ≠ '=' := by decide

theorem b64_roundtrip : ∀ bs : List Byte, b64decodeBytes (b64encodeBytes bs) = some bs
  | [] => rfl
  | [a] => by
    have ha := a.isLt
    have e0 : b64val (b64char (a.val / 4)) = some (a.val / 4) :=
      b64val_b64char _ (by omega)
    have e1 : b64val (b64char ((a.val % 4) * 16)) = some ((a.val % 4) * 16) :=
      b64val_b64char _ (by omega)
    simp only [b64encodeBytes, b64decodeBytes, e0, e1]
    simp [mkByte, Fin.ext_iff]
    omega
  | [a, b] => by
    have ha := a.isLt
    have hb := b.isLt
    have e0 : b64val (b64char (a.val / 4)) = some (a.val / 4) :=
      b64val_b64char _ (by omega)
    have e1 : b64val (b64char ((a.val % 4) * 16 + b.val / 16)) =
        some ((a.val % 4) * 16 + b.val / 16) := b64val_b64char _ (by omega)
    have e2 : b64val (b64char ((b.val % 16) * 4)) = some ((b.val % 16) * 4) :=
      b64val_b64char _ (by omega)
    have hne : b64char ((b.val % 16) * 4) ≠ '=' := b64char_ne_pad _ (by omega)
    simp only [b64encodeBytes, b64decodeBytes, e0, e1, e2, if_neg hne]
    simp [mkByte, Fin.ext_iff]
    omega
  | a :: b :: c :: rest => by
    have ha := a.isLt
    have hb := b.isLt
    have hc := c.isLt
    have ih := b64_roundtrip rest
    have e0 : b64val (b64char (a.val / 4)) = some (a.val / 4) :=
      b64val_b64char _ (by omega)
    have e1 : b64val (b64char ((a.val % 4) * 16 + b.val / 16)) =
        some ((a.val % 4) * 16 + b.val / 16) := b64val_b64char _ (by omega)
    have e2 : b64val (b64char ((b.val % 16) * 4 + c.val / 64)) =
        some ((b.val % 16) * 4 + c.val / 64) := b64val_b64char _ (by omega)
    have e3 : b64val (b64char (c.val % 64)) = some (c.val % 64) :=
      b64val_b64char _ (by omega)
    have hne2 : b64char ((b.val % 16) * 4 + c.val / 64) ≠ '=' :=
      b64char_ne_pad _ (by omega)
    have hne3 : b64char (c.val % 64) ≠ '=' := b64char_ne_pad _ (by omega)
    simp only [b64encodeBytes, b64chars3, List.cons_append, List.nil_append,
      b64decodeBytes, e0, e1, e2, e3, if_neg hne2, if_neg hne3, ih]
    simp [mkByte, Fin.ext_iff, ih]
    omega

theorem ffTok_true_squote (cs : List Char) :
    ffTokenAux true (squote :: cs) = ffTokenAux false cs := by
  rw [ffTokenAux.eq_def]
  simp

theorem ffTok_true_other {c : Char} (h : c ≠ squote) (cs : List Char) :
    ffTokenAux true (c :: cs) = c :: ffTokenAux true cs := by
  rw [ffTokenAux.eq_def]
  simp [h]

theorem ffTok_false_squote (cs : List Char) :
    ffTokenAux false (squote :: cs) = ffTokenAux true cs := by
  rw [ffTokenAux.eq_def]
  simp

theorem ffTok_false_bslash (d : Char) (ds : List Char) :
    ffTokenAux false (bslash :: d :: ds) = d :: ffTokenAux false ds := by
  have h1 : bslash ≠ squote := by decide
  have h2 : bslash ≠ nlChar := by decide
  have h3 : bslash = bslash := rfl
  rw [ffTokenAux.eq_def]
  simp [h1, h2]

theorem ffTok_false_nl (cs : List Char) :
    ffTokenAux false (nlChar :: cs) = [] := by
  have h3 : nlChar ≠ squote := by decide
  rw [ffTokenAux.eq_def]
  simp [h3]

theorem escChars_squote (cs : List Char) :
    escChars (squote :: cs) = squote :: bslash :: squote :: squote :: escChars cs := by
  rw [escChars.eq_def]
  simp

theorem escChars_other {c : Char} (h : c ≠ squote) (cs : List Char) :
    escChars (c :: cs) = c :: escChars cs := by
  rw [escChars.eq_def]
  simp [h]

theorem ffTokenAux_escChars (p : List Char) :
    ffTokenAux true (escChars p ++ squote :: nlChar :: []) = p := by
  induction p with
  | nil =>
    simp only [escChars, List.nil_append, ffTok_true_squote, ffTok_false_nl]
  | cons c cs ih =>
    by_cases hq : c = squote
    · subst hq
      simp only [escChars_squote, List.cons_append, ffTok_true_squote,
        ffTok_false_bslash, ffTok_false_squote, ih]
    · simp only [escChars_other hq, List.cons_append, ffTok_true_other hq, ih]

theorem stitch_ok_success {env : Env} {ps : List String} {out : String}
    {ev : List Event} {r : StitchResult}
    (h : stitch_videos_ffmpeg env ps out = (ev, Except.ok r)) :
    r = stitchSuccess env out ps.length := by
  simp only [stitch_videos_ffmpeg] at h
  split_ifs at h <;> simp at h <;> exact h.2.symm

/-- Claim C3: the mux filter chain contains the gain filter exactly when
the volume multiplier differs from 1.0 and the fade filter exactly when
the fade duration is positive and strictly below the probed video
duration; when both are present the gain precedes the fade, which starts
at duration minus fade and lasts fade seconds; a fade at least as long as
the video gives the same chain as a zero fade; and the mux invocation
uses this chain built from the probed duration of the video input. -/
theorem mux_audio_filter_chain (av f dur : ℚ) (env : Env) (v a o : String) :
    (AudioFilter.volume av ∈ buildAudioFilters av f dur ↔ av ≠ 1) ∧
    (AudioFilter.afade (dur - f) f ∈ buildAudioFilters av f dur ↔ 0 < f ∧ f < dur) ∧
    (av ≠ 1 → 0 < f → f < dur →
      buildAudioFilters av f dur = [AudioFilter.volume av, AudioFilter.afade (dur - f) f]) ∧
    (dur ≤ f → buildAudioFilters av f dur = buildAudioFilters av 0 dur) ∧
    (∃ rest, (mux_audio_to_video env v a o av f).1 =
      Event.runTool (muxCopyCmd v a o (buildAudioFilters av f (get_video_duration env v))) :: rest) := by
  refine ⟨?_, ?_, ?_, ?_, ?_⟩
  · by_cases h1 : av = 1 <;> by_cases h2 : 0 < f ∧ f < dur <;>
      simp [buildAudioFilters, h1, h2]
  · by_cases h1 : av = 1 <;> by_cases h2 : 0 < f ∧ f < dur <;>
      simp [buildAudioFilters, h1, h2]
  · intro h1 h2 h3
    simp [buildAudioFilters, h1, h2, h3]
  · intro h
    have hna : ¬(0 < f ∧ f < dur) := fun hc => absurd (lt_of_lt_of_le hc.2 h) (lt_irrefl f)
    simp [buildAudioFilters, hna]
  · simp only [mux_audio_to_video]
    split_ifs <;> exact ⟨_, rfl⟩

theorem mux_audio_filter_chain_w :
    buildAudioFilters 2 1 3 = [AudioFilter.volume 2, AudioFilter.afade (3 - 1) 1] ∧
    buildAudioFilters 2 5 3 = buildAudioFilters 2 0 3 :=
  ⟨(mux_audio_filter_chain 2 1 3 envOK "v" "a" "o").2.2.1 (by norm_num) (by norm_num)
      (by norm_num),
   (mux_audio_filter_chain 2 5 3 envOK "v" "a" "o").2.2.2.1 (by norm_num)⟩

/-- Claim C4 counterexample: at a concrete pair of invocations, the
audio bitrate argument of the concatenation transcode fallback is 128k
while the mux transcode fallback uses 192k, so the two fallbacks do not
agree on every encode target. -/
theorem fallback_audio_bitrate_cex :
    argAfter "-b:a" (concatFallbackCmd "/tmp/j/concat_list.txt" "/tmp/j/stitched.mp4") =
      some "128k" ∧
    argAfter "-b:a"
      (muxFallbackCmd "/tmp/j/stitched.mp4" "/tmp/j/audio_000.mp3" "/tmp/j/final.mp4" []) =
      some "192k" ∧
    (some "128k" : Option String) ≠ some "192k" := by
  refine ⟨by decide, by decide, by decide⟩

/-- Claim C4 as amended: every concatenation transcode fallback and every
mux transcode fallback share the video codec, preset, quality value and
audio codec arguments, but their audio bitrate arguments differ: 128k in
the concatenation fallback, 192k in the mux fallback. -/
theorem fallback_encode_targets_match_except_audio_bitrate
    (cf out v a o : String) (fs : List AudioFilter) :
    (∃ s t, concatFallbackCmd cf out =
      s ++ ["-c:v", "libx264", "-preset", "fast", "-crf", "23", "-c:a", "aac"] ++ t) ∧
    (∃ s t, muxFallbackCmd v a o fs =
      s ++ ["-c:v", "libx264", "-preset", "fast", "-crf", "23", "-c:a", "aac"] ++ t) ∧
    (∃ s t, concatFallbackCmd cf out = s ++ ["-b:a", "128k"] ++ t) ∧
    (∃ s t, muxFallbackCmd v a o fs = s ++ ["-b:a", "192k"] ++ t) := by
  refine ⟨⟨["ffmpeg", "-y", "-f", "concat", "-safe", "0", "-i", cf],
      ["-b:a", "128k", out], ?_⟩,
    ⟨["ffmpeg", "-y", "-i", v, "-i", a, "-map", "0:v:0", "-map", "1:a:0"],
      ["-b:a", "192k", "-shortest"] ++
        (if fs.isEmpty then [] else ["-af", renderFilters fs]) ++ [o], ?_⟩,
    ⟨["ffmpeg", "-y", "-f", "concat", "-safe", "0", "-i", cf,
        "-c:v", "libx264", "-preset", "fast", "-crf", "23", "-c:a", "aac"], [out], ?_⟩,
    ⟨["ffmpeg", "-y", "-i", v, "-i", a, "-map", "0:v:0", "-map", "1:a:0",
        "-c:v", "libx264", "-preset", "fast", "-crf", "23", "-c:a", "aac"],
      ["-shortest"] ++ (if fs.isEmpty then [] else ["-af", renderFilters fs]) ++ [o], ?_⟩⟩ <;>
    simp [concatFallbackCmd, muxFallbackCmd]

/-- Claim C5: a request whose segment list is missing, empty or shorter
than two entries gets the validation failure mapping with its single
error string, with an empty event trace: no scratch directory, no fetch,
no tool invocation. -/
theorem short_segment_list_fails_fast (env : Env) (job : JobInput)
    (h : (job.segments.getD []).length < 2) :
    handler env job =
      ([], HandlerOutcome.ret (RpResult.failure "At least 2 video segment URLs are required")) := by
  simp only [handler]
  rw [if_pos (Or.inr h)]

theorem short_segment_list_fails_fast_w :
    (jobOneSeg.segments.getD []).length < 2 ∧
    handler envOK jobOneSeg =
      ([], HandlerOutcome.ret (RpResult.failure "At least 2 video segment URLs are required")) :=
  ⟨by decide, short_segment_list_fails_fast envOK jobOneSeg (by decide)⟩

/-- Claim C9: when a supplied audio_volume or fade_out value cannot be
converted to a float, the handler ends in an uncaught exception instead
of a failure mapping, and its event trace is empty, so no scratch
directory was created. -/
theorem unconvertible_float_raises_uncaught (env : Env) (job : JobInput) (m : String) (av : ℚ)
    (hseg : 2 ≤ (job.segments.getD []).length) :
    (pyFloat job.audio_volume 1 = Except.error m →
      handler env job = ([], HandlerOutcome.raised m)) ∧
    (pyFloat job.audio_volume 1 = Except.ok av →
      pyFloat job.fade_out 0 = Except.error m →
      handler env job = ([], HandlerOutcome.raised m)) := by
  have hval : ¬((job.segments.getD []).isEmpty = true ∨ (job.segments.getD []).length < 2) := by
    intro hc
    rcases hc with hc | hc
    · cases hl : job.segments.getD [] with
      | nil => rw [hl] at hseg; simp at hseg
      | cons x xs => rw [hl] at hc; simp at hc
    · omega
  constructor
  · intro h
    simp only [handler]
    rw [if_neg hval, h]
  · intro h1 h2
    simp only [handler]
    rw [if_neg hval, h1, h2]

theorem unconvertible_float_raises_uncaught_w :
    2 ≤ (jobBadVolume.segments.getD []).length ∧
    pyFloat jobBadVolume.audio_volume 1 =
      Except.error "could not convert string to float: loud" ∧
    handler envOK jobBadVolume =
      ([], HandlerOutcome.raised "could not convert string to float: loud") :=
  ⟨by decide, rfl,
    (unconvertible_float_raises_uncaught envOK jobBadVolume _ 1 (by decide)).1 rfl⟩

theorem download_file_ok {env : Env} {url td pfx : String} {i : Nat}
    {ev : List Event} {p : String}
    (h : download_file env url td pfx i = (ev, Except.ok p)) :
    ev = [Event.fetch url] ∧ ∃ ct bs, env.fetch url = Except.ok (ct, bs) ∧
      p = scratchPath td pfx i (inferExt url ct) := by
  rcases hf : env.fetch url with e | ⟨ct, bs⟩
  · simp [download_file, hf] at h
  · simp only [download_file, hf, Prod.mk.injEq, Except.ok.injEq] at h
    exact ⟨h.1.symm, ct, bs, rfl, h.2.symm⟩

theorem downloadSegments_order (env : Env) (td : String) (us : List String) :
    ∀ (k : Nat) (ev : List Event) (ps : List String),
      downloadSegments env td us k = (ev, Except.ok ps) →
      ps.length = us.length ∧
      ∀ i u, us[i]? = some u →
        ∃ ct bs, env.fetch u = Except.ok (ct, bs) ∧
          ps[i]? = some (scratchPath td "segment" (k + i) (inferExt u ct)) := by
  induction us with
  | nil =>
    intro k ev ps h
    simp only [downloadSegments, Prod.mk.injEq, Except.ok.injEq] at h
    obtain ⟨-, hps⟩ := h
    subst hps
    exact ⟨rfl, fun i u hi => by simp at hi⟩
  | cons x xs ih =>
    intro k ev ps h
    simp only [downloadSegments] at h
    rcases hdf : download_file env x td "segment" k with ⟨ev1, res1⟩
    rw [hdf] at h
    cases res1 with
    | error e => simp at h
    | ok p =>
      rcases hrest : downloadSegments env td xs (k + 1) with ⟨ev2, res2⟩
      rw [hrest] at h
      cases res2 with
      | error e => simp at h
      | ok ps2 =>
        simp only [Prod.mk.injEq, Except.ok.injEq] at h
        obtain ⟨-, hps⟩ := h
        subst hps
        obtain ⟨hlen, hord⟩ := ih (k + 1) ev2 ps2 hrest
        obtain ⟨-, ct, bs, hf, hp⟩ := download_file_ok hdf
        refine ⟨by simp [hlen], fun i u hi => ?_⟩
        cases i with
        | zero =>
          simp only [List.getElem?_cons_zero, Option.some.injEq] at hi ⊢
          subst hi
          exact ⟨ct, bs, hf, by rw [hp]; simp⟩
        | succ n =>
          simp only [List.getElem?_cons_succ] at hi ⊢
          obtain ⟨ct2, bs2, hf2, hp2⟩ := hord n u hi
          have harith : k + 1 + n = k + (n + 1) := by omega
          rw [harith] at hp2
          exact ⟨ct2, bs2, hf2, hp2⟩

theorem stitch_cases (env : Env) (paths : List String) (out : String) :
    ((env.run (concatCopyCmd (dirname out ++ "/concat_list.txt") out)).returncode = 0 →
      stitch_videos_ffmpeg env paths out =
        ([Event.writeFile (dirname out ++ "/concat_list.txt") (concatFileContent paths),
          Event.runTool (concatCopyCmd (dirname out ++ "/concat_list.txt") out)],
         Except.ok (stitchSuccess env out paths.length))) ∧
    ((env.run (concatCopyCmd (dirname out ++ "/concat_list.txt") out)).returncode ≠ 0 →
      (env.run (concatFallbackCmd (dirname out ++ "/concat_list.txt") out)).returncode = 0 →
      stitch_videos_ffmpeg env paths out =
        ([Event.writeFile (dirname out ++ "/concat_list.txt") (concatFileContent paths),
          Event.runTool (concatCopyCmd (dirname out ++ "/concat_list.txt") out),
          Event.runTool (concatFallbackCmd (dirname out ++ "/concat_list.txt") out)],
         Except.ok (stitchSuccess env out paths.length))) ∧
    ((env.run (concatCopyCmd (dirname out ++ "/concat_list.txt") out)).returncode ≠ 0 →
      (env.run (concatFallbackCmd (dirname out ++ "/concat_list.txt") out)).returncode ≠ 0 →
      stitch_videos_ffmpeg env paths out =
        ([Event.writeFile (dirname out ++ "/concat_list.txt") (concatFileContent paths),
          Event.runTool (concatCopyCmd (dirname out ++ "/concat_list.txt") out),
          Event.runTool (concatFallbackCmd (dirname out ++ "/concat_list.txt") out)],
         Except.error ("FFmpeg failed: " ++
           (env.run (concatFallbackCmd (dirname out ++ "/concat_list.txt") out)).stderr))) := by
  refine ⟨fun h => ?_, fun h1 h2 => ?_, fun h1 h2 => ?_⟩
  · simp only [stitch_videos_ffmpeg]
    rw [if_neg (fun hc => hc h)]
  · simp only [stitch_videos_ffmpeg]
    rw [if_pos h1, if_neg (fun hc => hc h2)]
  · simp only [stitch_videos_ffmpeg]
    rw [if_pos h1, if_pos h2]

theorem handler_eq_body {env : Env} {job : JobInput} {segs : List String} {av fo : ℚ}
    (hseg : job.segments = some segs) (hlen : 2 ≤ segs.length)
    (hav : pyFloat job.audio_volume 1 = Except.ok av)
    (hfo : pyFloat job.fade_out 0 = Except.ok fo) :
    handler env job =
      (Event.mkdtemp env.tempName ::
        (handlerBody env env.tempName segs (job.output_format.getD "mp4")
          job.audio_url av fo).1 ++ [Event.rmtree env.tempName],
       HandlerOutcome.ret
        (handlerBody env env.tempName segs (job.output_format.getD "mp4")
          job.audio_url av fo).2) := by
  have hval : ¬(segs.isEmpty = true ∨ segs.length < 2) := by
    intro hc
    rcases hc with hc | hc
    · cases segs with
      | nil => simp at hlen
      | cons x xs => simp at hc
    · omega
  simp only [handler, hseg, Option.getD_some]
  rw [if_neg hval, hav, hfo]

theorem body_dl_err {env : Env} {td : String} {segs : List String} {fmt : String}
    {aurl : Option String} {av fo : ℚ} {evd : List Event} {e : String}
    (hdl : downloadSegments env td segs 0 = (evd, Except.error e)) :
    handlerBody env td segs fmt aurl av fo = (evd, RpResult.failure e) := by
  simp only [handlerBody, hdl]

theorem body_stitch_err {env : Env} {td : String} {segs : List String} {fmt : String}
    (aurl : Option String) (av fo : ℚ)
    {evd evs : List Event} {ps : List String} {e : String}
    (hdl : downloadSegments env td segs 0 = (evd, Except.ok ps))
    (hst : stitch_videos_ffmpeg env ps (stitchedPath td fmt) = (evs, Except.error e)) :
    handlerBody env td segs fmt aurl av fo = (evd ++ evs, RpResult.failure e) := by
  simp only [handlerBody, hdl, hst]

theorem body_final {env : Env} {td : String} {segs : List String} {fmt : String}
    {aurl : Option String} {av fo : ℚ} {evd evs eva : List Event} {ps : List String}
    {sres : StitchResult} {p : String} {ha : Bool}
    (hdl : downloadSegments env td segs 0 = (evd, Except.ok ps))
    (hst : stitch_videos_ffmpeg env ps (stitchedPath td fmt) = (evs, Except.ok sres))
    (hau : audioStage env td (stitchedPath td fmt) (finalPath td fmt) aurl av fo =
      (eva, p, ha)) :
    handlerBody env td segs fmt aurl av fo =
      (evd ++ evs ++ eva, finalizeResult env p fmt segs.length ha) := by
  have hs := stitch_ok_success hst
  subst hs
  simp only [handlerBody, hdl, hst, hau, stitchSuccess, Bool.not_true]
  simp

theorem audioStage_none (env : Env) (td s f : String) (av fo : ℚ) :
    audioStage env td s f none av fo = ([], s, false) := rfl

theorem audioStage_fetch_err {env : Env} {aurl : String} {e : String}
    (hne : aurl.isEmpty = false) (hf : env.fetch aurl = Except.error e)
    (td s f : String) (av fo : ℚ) :
    audioStage env td s f (some aurl) av fo = ([Event.fetch aurl], s, false) := by
  simp [audioStage, download_file, hne, hf]

theorem audioStage_mux_err {env : Env} {aurl ct : String} {bs : List Byte}
    {td s f : String} {av fo : ℚ} {evm : List Event} {me : String}
    (hne : aurl.isEmpty = false) (hf : env.fetch aurl = Except.ok (ct, bs))
    (hm : mux_audio_to_video env s (scratchPath td "audio" 0 (inferExt aurl ct)) f av fo =
      (evm, Except.error me)) :
    audioStage env td s f (some aurl) av fo = (Event.fetch aurl :: evm, s, false) := by
  simp [audioStage, download_file, hne, hf, hm]

/-- Claim C2: the concatenation always attempts the stream-copy command
first; exactly one transcode fallback (libx264, preset fast, crf 23, aac
at 128k) runs if and only if the copy tier reports failure; when the
fallback also fails the invocation raises with the tool's stderr
attached, and under an otherwise successful job the handler surfaces that
text to the host inside the failure mapping. -/
theorem concat_copy_then_single_transcode_fallback
    (env : Env) (paths : List String) (out : String) :
    ((env.run (concatCopyCmd (dirname out ++ "/concat_list.txt") out)).returncode = 0 →
      stitch_videos_ffmpeg env paths out =
        ([Event.writeFile (dirname out ++ "/concat_list.txt") (concatFileContent paths),
          Event.runTool (concatCopyCmd (dirname out ++ "/concat_list.txt") out)],
         Except.ok (stitchSuccess env out paths.length))) ∧
    ((env.run (concatCopyCmd (dirname out ++ "/concat_list.txt") out)).returncode ≠ 0 →
      (env.run (concatFallbackCmd (dirname out ++ "/concat_list.txt") out)).returncode = 0 →
      stitch_videos_ffmpeg env paths out =
        ([Event.writeFile (dirname out ++ "/concat_list.txt") (concatFileContent paths),
          Event.runTool (concatCopyCmd (dirname out ++ "/concat_list.txt") out),
          Event.runTool (concatFallbackCmd (dirname out ++ "/concat_list.txt") out)],
         Except.ok (stitchSuccess env out paths.length))) ∧
    ((env.run (concatCopyCmd (dirname out ++ "/concat_list.txt") out)).returncode ≠ 0 →
      (env.run (concatFallbackCmd (dirname out ++ "/concat_list.txt") out)).returncode ≠ 0 →
      stitch_videos_ffmpeg env paths out =
        ([Event.writeFile (dirname out ++ "/concat_list.txt") (concatFileContent paths),
          Event.runTool (concatCopyCmd (dirname out ++ "/concat_list.txt") out),
          Event.runTool (concatFallbackCmd (dirname out ++ "/concat_list.txt") out)],
         Except.error ("FFmpeg failed: " ++
           (env.run (concatFallbackCmd (dirname out ++ "/concat_list.txt") out)).stderr))) ∧
    (∀ (job : JobInput) (segs : List String) (av fo : ℚ)
        (evd : List Event) (ps : List String),
      job.segments = some segs → 2 ≤ segs.length →
      pyFloat job.audio_volume 1 = Except.ok av →
      pyFloat job.fade_out 0 = Except.ok fo →
      downloadSegments env env.tempName segs 0 = (evd, Except.ok ps) →
      (env.run (concatCopyCmd
        (dirname (stitchedPath env.tempName (job.output_format.getD "mp4")) ++
          "/concat_list.txt")
        (stitchedPath env.tempName (job.output_format.getD "mp4")))).returncode ≠ 0 →
      (env.run (concatFallbackCmd
        (dirname (stitchedPath env.tempName (job.output_format.getD "mp4")) ++
          "/concat_list.txt")
        (stitchedPath env.tempName (job.output_format.getD "mp4")))).returncode ≠ 0 →
      (handler env job).2 = HandlerOutcome.ret (RpResult.failure ("FFmpeg failed: " ++
        (env.run (concatFallbackCmd
          (dirname (stitchedPath env.tempName (job.output_format.getD "mp4")) ++
            "/concat_list.txt")
          (stitchedPath env.tempName (job.output_format.getD "mp4")))).stderr))) := by
  refine ⟨(stitch_cases env paths out).1, (stitch_cases env paths out).2.1,
    (stitch_cases env paths out).2.2, ?_⟩
  intro job segs av fo evd ps hseg hlen hav hfo hdl h1 h2
  have hst := (stitch_cases env ps
    (stitchedPath env.tempName (job.output_format.getD "mp4"))).2.2 h1 h2
  have hb := body_stitch_err job.audio_url av fo hdl hst
  rw [handler_eq_body hseg hlen hav hfo]
  simp only [hb]

theorem concat_copy_then_single_transcode_fallback_w :
    (envBad.run (concatCopyCmd (dirname "/tmp/j/out.mp4" ++ "/concat_list.txt")
      "/tmp/j/out.mp4")).returncode ≠ 0 ∧
    stitch_videos_ffmpeg envBad ["a.mp4", "b.mp4"] "/tmp/j/out.mp4" =
      ([Event.writeFile (dirname "/tmp/j/out.mp4" ++ "/concat_list.txt")
          (concatFileContent ["a.mp4", "b.mp4"]),
        Event.runTool (concatCopyCmd (dirname "/tmp/j/out.mp4" ++ "/concat_list.txt")
          "/tmp/j/out.mp4"),
        Event.runTool (concatFallbackCmd (dirname "/tmp/j/out.mp4" ++ "/concat_list.txt")
          "/tmp/j/out.mp4")],
       Except.error ("FFmpeg failed: " ++
         (envBad.run (concatFallbackCmd (dirname "/tmp/j/out.mp4" ++ "/concat_list.txt")
           "/tmp/j/out.mp4")).stderr)) :=
  ⟨by decide,
   (concat_copy_then_single_transcode_fallback envBad ["a.mp4", "b.mp4"]
     "/tmp/j/out.mp4").2.2.1 (by decide) (by decide)⟩

/-- Claim C1: with audio_url supplied, when the audio fetch raises or
when both mux tiers fail, the handler still returns the success mapping
with has_audio false whose payload, duration and byte size come from the
concatenated video-only artifact. -/
theorem audio_failure_degrades_to_video_only (env : Env) (job : JobInput)
    (segs : List String) (aurl : String) (av fo : ℚ) (fmt : String)
    (evd evs : List Event) (ps : List String) (sres : StitchResult)
    (hseg : job.segments = some segs) (hlen : 2 ≤ segs.length)
    (hav : pyFloat job.audio_volume 1 = Except.ok av)
    (hfo : pyFloat job.fade_out 0 = Except.ok fo)
    (hfmt : job.output_format.getD "mp4" = fmt)
    (haurl : job.audio_url = some aurl) (hne : aurl.isEmpty = false)
    (hdl : downloadSegments env env.tempName segs 0 = (evd, Except.ok ps))
    (hst : stitch_videos_ffmpeg env ps (stitchedPath env.tempName fmt) =
      (evs, Except.ok sres))
    (hfail : (∃ e, env.fetch aurl = Except.error e) ∨
      (∃ ct bs evm me, env.fetch aurl = Except.ok (ct, bs) ∧
        mux_audio_to_video env (stitchedPath env.tempName fmt)
          (scratchPath env.tempName "audio" 0 (inferExt aurl ct))
          (finalPath env.tempName fmt) av fo = (evm, Except.error me))) :
    (handler env job).2 = HandlerOutcome.ret (RpResult.success
      ("data:" ++ (if fmt = "webm" then "video/webm" else "video/mp4") ++ ";base64," ++
        String.mk (b64encodeBytes (env.fileBytes (stitchedPath env.tempName fmt))))
      (get_video_duration env (stitchedPath env.tempName fmt))
      (env.fileBytes (stitchedPath env.tempName fmt)).length
      segs.length fmt false) := by
  subst hfmt
  rw [handler_eq_body hseg hlen hav hfo, haurl]
  rcases hfail with ⟨e, hf⟩ | ⟨ct, bs, evm, me, hf, hm⟩
  · have hau := audioStage_fetch_err hne hf env.tempName
      (stitchedPath env.tempName (job.output_format.getD "mp4"))
      (finalPath env.tempName (job.output_format.getD "mp4")) av fo
    have hb := body_final hdl hst hau
    simp only [hb, finalizeResult]
  · have hau := audioStage_mux_err hne hf hm
    have hb := body_final hdl hst hau
    simp only [hb, finalizeResult]

theorem audio_failure_degrades_to_video_only_w :
    (handler envAudioFail jobWithAudio).2 = HandlerOutcome.ret (RpResult.success
      ("data:" ++ (if "mp4" = "webm" then "video/webm" else "video/mp4") ++ ";base64," ++
        String.mk (b64encodeBytes (envAudioFail.fileBytes
          (stitchedPath "/tmp/stitch_w" "mp4"))))
      (get_video_duration envAudioFail (stitchedPath "/tmp/stitch_w" "mp4"))
      (envAudioFail.fileBytes (stitchedPath "/tmp/stitch_w" "mp4")).length
      2 "mp4" false) :=
  audio_failure_degrades_to_video_only envAudioFail jobWithAudio ["s1", "s2"] "au" 1 0 "mp4"
    [Event.fetch "s1", Event.fetch "s2"]
    [Event.writeFile "/tmp/stitch_w/concat_list.txt"
      (concatFileContent ["/tmp/stitch_w/segment_000.mp4", "/tmp/stitch_w/segment_001.mp4"]),
     Event.runTool (concatCopyCmd "/tmp/stitch_w/concat_list.txt"
       "/tmp/stitch_w/stitched.mp4")]
    ["/tmp/stitch_w/segment_000.mp4", "/tmp/stitch_w/segment_001.mp4"]
    (stitchSuccess envAudioFail (stitchedPath "/tmp/stitch_w" "mp4") 2)
    rfl (by norm_num) rfl rfl rfl rfl rfl rfl rfl
    (Or.inl ⟨"netfail", rfl⟩)

/-- Claim C10: output_format is never validated: for an arbitrary format
string the job proceeds, the mime tag of the data URI is video/webm
exactly when the format equals webm and video/mp4 otherwise, the raw
request value is echoed in the format field, and it is used as the
extension of the output scratch path. -/
theorem output_format_never_validated (env : Env) (job : JobInput)
    (segs : List String) (fmt : String) (av fo : ℚ)
    (evd evs : List Event) (ps : List String) (sres : StitchResult)
    (hseg : job.segments = some segs) (hlen : 2 ≤ segs.length)
    (hav : pyFloat job.audio_volume 1 = Except.ok av)
    (hfo : pyFloat job.fade_out 0 = Except.ok fo)
    (hfmt : job.output_format = some fmt)
    (haud : job.audio_url = none)
    (hdl : downloadSegments env env.tempName segs 0 = (evd, Except.ok ps))
    (hst : stitch_videos_ffmpeg env ps (stitchedPath env.tempName fmt) =
      (evs, Except.ok sres)) :
    (handler env job).2 = HandlerOutcome.ret (RpResult.success
      ("data:" ++ (if fmt = "webm" then "video/webm" else "video/mp4") ++ ";base64," ++
        String.mk (b64encodeBytes (env.fileBytes (stitchedPath env.tempName fmt))))
      (get_video_duration env (stitchedPath env.tempName fmt))
      (env.fileBytes (stitchedPath env.tempName fmt)).length
      segs.length fmt false) ∧
    stitchedPath env.tempName fmt = env.tempName ++ "/stitched." ++ fmt := by
  have hgd : job.output_format.getD "mp4" = fmt := by rw [hfmt]; rfl
  constructor
  · rw [handler_eq_body hseg hlen hav hfo, haud, hgd]
    have hau := audioStage_none env env.tempName (stitchedPath env.tempName fmt)
      (finalPath env.tempName fmt) av fo
    have hb := body_final hdl hst hau
    simp only [hb, finalizeResult]
  · rfl

theorem output_format_never_validated_w :
    (handler envOK jobWeirdFmt).2 = HandlerOutcome.ret (RpResult.success
      ("data:" ++ (if "weird" = "webm" then "video/webm" else "video/mp4") ++ ";base64," ++
        String.mk (b64encodeBytes (envOK.fileBytes (stitchedPath "/tmp/stitch_w" "weird"))))
      (get_video_duration envOK (stitchedPath "/tmp/stitch_w" "weird"))
      (envOK.fileBytes (stitchedPath "/tmp/stitch_w" "weird")).length
      2 "weird" false) ∧
    stitchedPath "/tmp/stitch_w" "weird" = "/tmp/stitch_w" ++ "/stitched." ++ "weird" :=
  output_format_never_validated envOK jobWeirdFmt ["s1", "s2"] "weird" 1 0
    [Event.fetch "s1", Event.fetch "s2"]
    [Event.writeFile "/tmp/stitch_w/concat_list.txt"
      (concatFileContent ["/tmp/stitch_w/segment_000.mp4", "/tmp/stitch_w/segment_001.mp4"]),
     Event.runTool (concatCopyCmd "/tmp/stitch_w/concat_list.txt"
       "/tmp/stitch_w/stitched.weird")]
    ["/tmp/stitch_w/segment_000.mp4", "/tmp/stitch_w/segment_001.mp4"]
    (stitchSuccess envOK (stitchedPath "/tmp/stitch_w" "weird") 2)
    rfl (by norm_num) rfl rfl rfl rfl rfl rfl

theorem body_shape (env : Env) (td : String) (segs : List String) (fmt : String)
    (aurl : Option String) (av fo : ℚ) :
    (∃ e, (handlerBody env td segs fmt aurl av fo).2 = RpResult.failure e) ∨
    (∃ p ha, (handlerBody env td segs fmt aurl av fo).2 =
      finalizeResult env p fmt segs.length ha) := by
  rcases hdl : downloadSegments env td segs 0 with ⟨evd, res⟩
  cases res with
  | error e => exact Or.inl ⟨e, by rw [body_dl_err hdl]⟩
  | ok ps =>
    rcases hst : stitch_videos_ffmpeg env ps (stitchedPath td fmt) with ⟨evs, res2⟩
    cases res2 with
    | error e => exact Or.inl ⟨e, by rw [body_stitch_err aurl av fo hdl hst]⟩
    | ok sres =>
      rcases hau : audioStage env td (stitchedPath td fmt) (finalPath td fmt) aurl av fo
        with ⟨eva, p, ha⟩
      exact Or.inr ⟨p, ha, by rw [body_final hdl hst hau]⟩

/-- Claim C8: every success mapping the handler returns carries a payload
that is exactly the data URI prefix for the requested format followed by
the base64 encoding of the final artifact's bytes; decoding that base64
text yields those bytes again, and the reported file size equals their
count. -/
theorem success_payload_base64_roundtrip (env : Env) (job : JobInput)
    (tr : List Event) (vb : String) (dur : ℚ) (size cnt : Nat) (fmt : String) (ha : Bool)
    (h : handler env job = (tr, HandlerOutcome.ret (RpResult.success vb dur size cnt fmt ha))) :
    ∃ bytes : List Byte,
      vb = "data:" ++ (if fmt = "webm" then "video/webm" else "video/mp4") ++ ";base64," ++
        String.mk (b64encodeBytes bytes) ∧
      size = bytes.length ∧
      b64decodeBytes (b64encodeBytes bytes) = some bytes := by
  simp only [handler] at h
  by_cases hval : ((job.segments.getD []).isEmpty = true ∨ (job.segments.getD []).length < 2)
  · rw [if_pos hval] at h
    simp at h
  · rw [if_neg hval] at h
    rcases hv : pyFloat job.audio_volume 1 with e | av
    · rw [hv] at h; simp at h
    · rw [hv] at h
      rcases hf : pyFloat job.fade_out 0 with e | fo
      · rw [hf] at h; simp at h
      · rw [hf] at h
        simp only [Prod.mk.injEq, HandlerOutcome.ret.injEq] at h
        obtain ⟨-, h2⟩ := h
        rcases body_shape env env.tempName (job.segments.getD [])
            (job.output_format.getD "mp4") job.audio_url av fo with ⟨e, he⟩ | ⟨p, hba, hfin⟩
        · rw [he] at h2; simp at h2
        · rw [hfin] at h2
          simp only [finalizeResult, RpResult.success.injEq] at h2
          obtain ⟨hvb, -, hsize, -, hfmt, -⟩ := h2
          subst hfmt
          exact ⟨env.fileBytes p, hvb.symm, hsize.symm, b64_roundtrip _⟩

theorem success_payload_base64_roundtrip_w :
    handler envOK jobTwoSegs =
      ([Event.mkdtemp "/tmp/stitch_w", Event.fetch "s1", Event.fetch "s2",
        Event.writeFile "/tmp/stitch_w/concat_list.txt"
          (concatFileContent
            ["/tmp/stitch_w/segment_000.mp4", "/tmp/stitch_w/segment_001.mp4"]),
        Event.runTool (concatCopyCmd "/tmp/stitch_w/concat_list.txt"
          "/tmp/stitch_w/stitched.mp4"),
        Event.rmtree "/tmp/stitch_w"],
       HandlerOutcome.ret
        (RpResult.success "data:video/mp4;base64," 0 0 2 "mp4" false)) ∧
    ∃ bytes : List Byte,
      "data:video/mp4;base64," =
        "data:" ++ (if "mp4" = "webm" then "video/webm" else "video/mp4") ++ ";base64," ++
          String.mk (b64encodeBytes bytes) ∧
      0 = bytes.length ∧
      b64decodeBytes (b64encodeBytes bytes) = some bytes :=
  ⟨rfl, success_payload_base64_roundtrip envOK jobTwoSegs _ _ _ _ _ _ _ rfl⟩

/-- Claim C6: the concat manifest holds exactly one line per segment path
in input order; each line parses back (under the external tool's
documented quote and escape reading) to exactly the original path, so
embedded single quotes cannot break an entry; fetching preserves request
order through the per-segment index; and the stitch invocation starts by
writing that manifest. -/
theorem manifest_order_escaping_fetch_indexing (env : Env) (td : String)
    (segs : List String) (ev : List Event) (ps : List String) (out : String)
    (hdl : downloadSegments env td segs 0 = (ev, Except.ok ps)) :
    (∀ p : String, ffParseLine (concatLine p) = some p) ∧
    (∀ (i : Nat) (p : String), ps[i]? = some p →
      (ps.map concatLine)[i]? = some (concatLine p)) ∧
    ps.length = segs.length ∧
    (∀ (i : Nat) (u : String), segs[i]? = some u →
      ∃ ct bs, env.fetch u = Except.ok (ct, bs) ∧
      ps[i]? = some (scratchPath td "segment" i (inferExt u ct))) ∧
    (∃ rest, (stitch_videos_ffmpeg env ps out).1 =
      Event.writeFile (dirname out ++ "/concat_list.txt") (concatFileContent ps) :: rest) := by
  obtain ⟨hlen, hord⟩ := downloadSegments_order env td segs 0 ev ps hdl
  refine ⟨?_, ?_, hlen, ?_, ?_⟩
  · intro p
    rcases p with ⟨d⟩
    simp only [concatLine, ffParseLine]
    rw [ffTok_false_squote, ffTokenAux_escChars]
  · intro i p hp
    simp only [List.getElem?_map, hp]
    rfl
  · intro i u hi
    obtain ⟨ct, bs, hf, hp⟩ := hord i u hi
    rw [Nat.zero_add] at hp
    exact ⟨ct, bs, hf, hp⟩
  · simp only [stitch_videos_ffmpeg]
    split_ifs <;> exact ⟨_, rfl⟩

theorem manifest_order_escaping_fetch_indexing_w :
    downloadSegments envOK "/tmp/stitch_w" ["it's.mp4", "b.mp4"] 0 =
      ([Event.fetch "it's.mp4", Event.fetch "b.mp4"],
       Except.ok ["/tmp/stitch_w/segment_000.mp4", "/tmp/stitch_w/segment_001.mp4"]) ∧
    ((∀ p : String, ffParseLine (concatLine p) = some p) ∧
    (∀ (i : Nat) (p : String),
      (["/tmp/stitch_w/segment_000.mp4", "/tmp/stitch_w/segment_001.mp4"] :
        List String)[i]? = some p →
      ((["/tmp/stitch_w/segment_000.mp4", "/tmp/stitch_w/segment_001.mp4"] :
        List String).map concatLine)[i]? = some (concatLine p)) ∧
    (["/tmp/stitch_w/segment_000.mp4", "/tmp/stitch_w/segment_001.mp4"] :
      List String).length = (["it's.mp4", "b.mp4"] : List String).length ∧
    (∀ (i : Nat) (u : String), (["it's.mp4", "b.mp4"] : List String)[i]? = some u →
      ∃ ct bs, envOK.fetch u = Except.ok (ct, bs) ∧
        (["/tmp/stitch_w/segment_000.mp4", "/tmp/stitch_w/segment_001.mp4"] :
          List String)[i]? = some (scratchPath "/tmp/stitch_w" "segment" i (inferExt u ct))) ∧
    (∃ rest, (stitch_videos_ffmpeg envOK
        ["/tmp/stitch_w/segment_000.mp4", "/tmp/stitch_w/segment_001.mp4"]
        "/tmp/j/out.mp4").1 =
      Event.writeFile (dirname "/tmp/j/out.mp4" ++ "/concat_list.txt")
        (concatFileContent
          ["/tmp/stitch_w/segment_000.mp4", "/tmp/stitch_w/segment_001.mp4"]) :: rest)) :=
  ⟨rfl, manifest_order_escaping_fetch_indexing envOK "/tmp/stitch_w" ["it's.mp4", "b.mp4"]
    [Event.fetch "it's.mp4", Event.fetch "b.mp4"]
    ["/tmp/stitch_w/segment_000.mp4", "/tmp/stitch_w/segment_001.mp4"] "/tmp/j/out.mp4" rfl⟩

theorem noRm_download_file (env : Env) (url td pfx : String) (i : Nat) (d : String) :
    Event.rmtree d ∉ (download_file env url td pfx i).1 := by
  rcases hf : env.fetch url with e | ⟨ct, bs⟩ <;> simp [download_file, hf]

theorem noRm_downloadSegments (env : Env) (td : String) (us : List String) :
    ∀ (k : Nat) (d : String), Event.rmtree d ∉ (downloadSegments env td us k).1 := by
  induction us with
  | nil => intro k d; simp [downloadSegments]
  | cons x xs ih =>
    intro k d
    simp only [downloadSegments]
    rcases hdf : download_file env x td "segment" k with ⟨ev1, res1⟩
    have h1 : Event.rmtree d ∉ ev1 := by
      have := noRm_download_file env x td "segment" k d
      rw [hdf] at this
      exact this
    cases res1 with
    | error e => simpa using h1
    | ok p =>
      rcases hrest : downloadSegments env td xs (k + 1) with ⟨ev2, res2⟩
      have h2 : Event.rmtree d ∉ ev2 := by
        have := ih (k + 1) d
        rw [hrest] at this
        exact this
      cases res2 with
      | error e =>
        intro hmem
        rcases List.mem_append.mp hmem with hm | hm
        exacts [h1 hm, h2 hm]
      | ok ps =>
        intro hmem
        rcases List.mem_append.mp hmem with hm | hm
        exacts [h1 hm, h2 hm]

theorem noRm_stitch (env : Env) (ps : List String) (out : String) (d : String) :
    Event.rmtree d ∉ (stitch_videos_ffmpeg env ps out).1 := by
  simp only [stitch_videos_ffmpeg]
  split_ifs <;> simp

theorem noRm_mux (env : Env) (v a o : String) (av fo : ℚ) (d : String) :
    Event.rmtree d ∉ (mux_audio_to_video env v a o av fo).1 := by
  simp only [mux_audio_to_video]
  split_ifs <;> simp

theorem noRm_audioStage (env : Env) (td s f : String) (aurl : Option String)
    (av fo : ℚ) (d : String) :
    Event.rmtree d ∉ (audioStage env td s f aurl av fo).1 := by
  cases aurl with
  | none => simp [audioStage]
  | some u =>
    by_cases hu : u.isEmpty
    · simp [audioStage, hu]
    · rcases hdf : download_file env u td "audio" 0 with ⟨ev1, res1⟩
      have h1 : Event.rmtree d ∉ ev1 := by
        have := noRm_download_file env u td "audio" 0 d
        rw [hdf] at this
        exact this
      cases res1 with
      | error e =>
        simp only [audioStage, hu, Bool.false_eq_true, if_false, hdf]
        exact h1
      | ok ap =>
        rcases hm : mux_audio_to_video env s ap f av fo with ⟨ev2, res2⟩
        have h2 : Event.rmtree d ∉ ev2 := by
          have := noRm_mux env s ap f av fo d
          rw [hm] at this
          exact this
        cases res2 with
        | error e =>
          simp only [audioStage, hu, Bool.false_eq_true, if_false, hdf, hm,
            List.mem_append, not_or]
          exact ⟨h1, h2⟩
        | ok mr =>
          by_cases hms : mr.success
          · simp only [audioStage, hu, Bool.false_eq_true, if_false, hdf, hm, hms,
              if_true, List.mem_append, not_or]
            exact ⟨h1, h2⟩
          · simp only [Bool.not_eq_true] at hms
            simp only [audioStage, hu, Bool.false_eq_true, if_false, hdf, hm, hms,
              List.mem_append, not_or]
            exact ⟨h1, h2⟩

theorem noRm_handlerBody (env : Env) (td : String) (segs : List String) (fmt : String)
    (aurl : Option String) (av fo : ℚ) (d : String) :
    Event.rmtree d ∉ (handlerBody env td segs fmt aurl av fo).1 := by
  rcases hdl : downloadSegments env td segs 0 with ⟨evd, res⟩
  have h1 : Event.rmtree d ∉ evd := by
    have := noRm_downloadSegments env td segs 0 d
    rw [hdl] at this
    exact this
  cases res with
  | error e =>
    simp only [handlerBody, hdl]
    exact h1
  | ok ps =>
    rcases hst : stitch_videos_ffmpeg env ps (stitchedPath td fmt) with ⟨evs, res2⟩
    have h2 : Event.rmtree d ∉ evs := by
      have := noRm_stitch env ps (stitchedPath td fmt) d
      rw [hst] at this
      exact this
    cases res2 with
    | error e =>
      simp only [handlerBody, hdl, hst, List.mem_append, not_or]
      exact ⟨h1, h2⟩
    | ok sres =>
      have h3 := noRm_audioStage env td (stitchedPath td fmt) (finalPath td fmt) aurl av fo d
      by_cases hs : sres.success
      · simp only [handlerBody, hdl, hst, hs, Bool.not_true, Bool.false_eq_true, if_false,
          List.append_assoc, List.mem_append, not_or]
        exact ⟨h1, h2, h3⟩
      · simp only [Bool.not_eq_true] at hs
        simp only [handlerBody, hdl, hst, hs, Bool.not_false, if_true]
        simp only [List.mem_append, not_or]
        exact ⟨h1, h2⟩

/-- Claim C7: on every run in which the scratch directory is allocated,
the event trace ends with exactly one recursive removal of that
directory, and the removal occurs nowhere earlier, so the scratch space
is destroyed exactly once, as the last action before the handler
returns. -/
theorem scratch_cleanup_exactly_once_last (env : Env) (job : JobInput)
    (hmk : Event.mkdtemp env.tempName ∈ (handler env job).1) :
    ∃ pre, (handler env job).1 = pre ++ [Event.rmtree env.tempName] ∧
      Event.rmtree env.tempName ∉ pre := by
  by_cases hval : ((job.segments.getD []).isEmpty = true ∨ (job.segments.getD []).length < 2)
  · exfalso
    revert hmk
    simp only [handler]
    rw [if_pos hval]
    simp
  · rcases hv : pyFloat job.audio_volume 1 with e | av
    · exfalso
      revert hmk
      simp only [handler]
      rw [if_neg hval, hv]
      simp
    · rcases hf : pyFloat job.fade_out 0 with e | fo
      · exfalso
        revert hmk
        simp only [handler]
        rw [if_neg hval, hv, hf]
        simp
      · refine ⟨Event.mkdtemp env.tempName ::
          (handlerBody env env.tempName (job.segments.getD [])
            (job.output_format.getD "mp4") job.audio_url av fo).1, ?_, ?_⟩
        · simp only [handler]
          rw [if_neg hval, hv, hf]
        · intro hmem
          rcases List.mem_cons.mp hmem with hm | hm
          · exact Event.noConfusion hm
          · exact noRm_handlerBody env env.tempName (job.segments.getD [])
              (job.output_format.getD "mp4") job.audio_url av fo env.tempName hm

theorem scratch_cleanup_exactly_once_last_w :
    Event.mkdtemp "/tmp/stitch_w" ∈ (handler envOK jobTwoSegs).1 ∧
    ∃ pre, (handler envOK jobTwoSegs).1 = pre ++ [Event.rmtree "/tmp/stitch_w"] ∧
      Event.rmtree "/tmp/stitch_w" ∉ pre :=
  ⟨by decide, scratch_cleanup_exactly_once_last envOK jobTwoSegs (by decide)⟩
